import Mathlib

/-!
Verification development for the compliance-fit-analyzer repository
(single source file `app.py`).

The Python source is shallowly embedded: strings are Lean `String`s
(internally their character lists), Python `str.lower` is ASCII
lowercasing via `Char.toLower` (all data in the repository is ASCII),
Python `str.count` is the non-overlapping left-to-right substring count,
Python `round(x, 2)` is modelled by `pyRound2` (round half to even at
two decimal places, over exact rationals), and the scikit-learn
TF-IDF/cosine similarity call — an external library, not repository
code — is an abstract oracle `sim : String → String → Option ℚ`
(`none` models the call raising, which `calculate_enhanced_score`
catches with its bare `except`).
-/

namespace ComplianceFit

/-- Model of Python `str.lower` on ASCII text (`Char.toLower` lowers
exactly the ASCII range, which covers all data in the repository). -/
def pyLower (s : List Char) : List Char := s.map Char.toLower

/-- Scanner behind `pyCount`: walks the haystack left to right; `skip`
characters are still to be skipped after a match.  On a match at the
current position the scan resumes after the matched substring, giving
the non-overlapping count Python's `str.count` computes.  `sub` is
assumed nonempty (the wrapper `pyCount` handles the empty pattern). -/
def countFrom (sub : List Char) : List Char → Nat → Nat
  | [], _ => 0
  | _ :: rest, Nat.succ k => countFrom sub rest k
  | c :: rest, 0 =>
      if sub.isPrefixOf (c :: rest) then countFrom sub rest (sub.length - 1) + 1
      else countFrom sub rest 0

/-- Model of Python `hay.count(sub)`: the number of non-overlapping
occurrences of `sub` in `hay`, scanning left to right (for the empty
pattern Python returns `len(hay) + 1`). -/
def pyCount (hay sub : List Char) : Nat :=
  if sub.isEmpty then hay.length + 1 else countFrom sub hay 0

/-- Substring test: `sub` occurs somewhere in `hay` (at any position,
with no word-boundary condition). -/
def hasSub (sub : List Char) : List Char → Bool
  | [] => sub.isEmpty
  | c :: rest => sub.isPrefixOf (c :: rest) || hasSub sub rest

theorem isPrefixOf_length_le : ∀ (a b : List Char), a.isPrefixOf b = true → a.length ≤ b.length
  | [], _, _ => Nat.zero_le _
  | _ :: _, [], h => by simp [List.isPrefixOf] at h
  | a :: as, b :: bs, h => by
      simp only [List.isPrefixOf, Bool.and_eq_true] at h
      simpa using Nat.succ_le_succ (isPrefixOf_length_le as bs h.2)

/-- Independent spec-side formulation of the case-blind substring
occurrence count: number of non-overlapping occurrences, leftmost
first, expressed by dropping the matched prefix. -/
def subOccs (sub : List Char) : List Char → Nat
  | [] => if sub.isEmpty then 1 else 0
  | c :: rest =>
      if sub.isEmpty then (c :: rest).length + 1
      else if sub.isPrefixOf (c :: rest) then
        subOccs sub (List.drop sub.length (c :: rest)) + 1
      else subOccs sub rest
termination_by hay => hay.length
decreasing_by
  all_goals simp only [List.length_drop, List.length_cons]
  · rename_i hs _
    have hpos : 0 < sub.length := by
      cases sub with
      | nil => simp [List.isEmpty] at hs
      | cons a as => exact Nat.succ_pos _
    omega
  · omega

/-- Model of `" ".join(parts)`. -/
def joinSp : List String → String
  | [] => ""
  | [p] => p
  | p :: ps => p ++ " " ++ joinSp ps

/-- Model of Python `round(x, 2)`: round half to even at the second
decimal place, over exact rationals. -/
def pyRound2 (x : ℚ) : ℚ :=
  let y : ℚ := x * 100
  let n : ℤ := Int.floor y
  let f : ℚ := y - n
  let r : ℤ :=
    if f < 1/2 then n
    else if 1/2 < f then n + 1
    else if n % 2 = 0 then n else n + 1
  (r : ℚ) / 100

theorem pyRound2_bounds (x : ℚ) (h0 : 0 ≤ x) (h1 : x ≤ 100) :
    0 ≤ pyRound2 x ∧ pyRound2 x ≤ 100 ∧ ∃ n : ℤ, pyRound2 x = (n : ℚ) / 100 := by
  have hy0 : (0 : ℚ) ≤ x * 100 := by linarith
  have hy1 : x * 100 ≤ 10000 := by linarith
  have hfl : ((Int.floor (x * 100) : ℤ) : ℚ) ≤ x * 100 := Int.floor_le _
  have hfl1 : x * 100 < (Int.floor (x * 100) : ℤ) + 1 := Int.lt_floor_add_one _
  have hn0 : (0 : ℤ) ≤ Int.floor (x * 100) := Int.floor_nonneg.mpr hy0
  have key : ∀ r : ℤ, 0 ≤ r → r ≤ 10000 →
      0 ≤ (r : ℚ) / 100 ∧ (r : ℚ) / 100 ≤ 100 ∧ ∃ n : ℤ, (r : ℚ) / 100 = (n : ℚ) / 100 := by
    intro r hr0 hr1
    have hr0' : (0 : ℚ) ≤ (r : ℚ) := by exact_mod_cast hr0
    have hr1' : ((r : ℚ)) ≤ 10000 := by exact_mod_cast hr1
    refine ⟨by positivity, by linarith, ⟨r, rfl⟩⟩
  show 0 ≤ _ / 100 ∧ _ / 100 ≤ 100 ∧ _
  simp only [pyRound2]
  split_ifs with hf1 hf2 hf3
  · exact key _ hn0 (by exact_mod_cast le_trans hfl hy1)
  · -- half exceeded: floor + 1 still at most 10000
    have hup : ((Int.floor (x * 100) : ℤ) : ℚ) + 1/2 ≤ x * 100 := by
      push_neg at hf1
      linarith
    have : ((Int.floor (x * 100) : ℤ) : ℚ) < 10000 := by linarith
    have hlt : Int.floor (x * 100) < 10000 := by exact_mod_cast this
    exact key _ (by omega) (by omega)
  · exact key _ hn0 (by exact_mod_cast le_trans hfl hy1)
  · have hup : ((Int.floor (x * 100) : ℤ) : ℚ) + 1/2 ≤ x * 100 := by
      push_neg at hf1
      linarith
    have : ((Int.floor (x * 100) : ℤ) : ℚ) < 10000 := by linarith
    have hlt : Int.floor (x * 100) < 10000 := by exact_mod_cast this
    exact key _ (by omega) (by omega)

/-- One entry of `skills_enhanced`: keyword tiers and the per-skill
threshold (the Python dict values; `.get(key, [])` defaults are total
here because every key is present). -/
structure SkillConfig where
  phrases : List String
  primary : List String
  secondary : List String
  threshold : Nat

/-- Spec-side helper: apply `g` to each element and concatenate (the
"repeat each matched keyword" construction of §4.4 step 2). -/
def repeatEach (g : String → List String) : List String → List String
  | [] => []
  | k :: ks => g k ++ repeatEach g ks

/-- Spec-side signal construction for one keyword tier with weight `w`
and per-keyword cap `cap`: each keyword repeated
`min (occurrence count * w) cap` times. -/
def tierSignal (tl : List Char) (w cap : Nat) (ks : List String) : List String :=
  repeatEach (fun k => List.replicate (min (pyCount tl (pyLower k.data) * w) cap) k) ks

/-- The `cv_parts` / `jd_parts` list built by the three loops of
`calculate_enhanced_score` (the text argument is already lowered, as
`cv_lower` / `jd_lower` are in the source). -/
def buildParts (tl : List Char) (cfg : SkillConfig) : List String :=
  let parts1 := cfg.phrases.foldl
    (fun acc ph => acc ++ List.replicate (min (pyCount tl (pyLower ph.data) * 3) 15) ph) []
  let parts2 := cfg.primary.foldl
    (fun acc kw => acc ++ List.replicate (min (pyCount tl (pyLower kw.data) * 2) 10) kw) parts1
  cfg.secondary.foldl
    (fun acc kw => acc ++ List.replicate (min (pyCount tl (pyLower kw.data)) 5) kw) parts2

/-- The occurrence count used throughout `app.py`:
`text.lower().count(kw.lower())`. -/
def kwCount (text kw : String) : Nat := pyCount (pyLower text.data) (pyLower kw.data)

/-- Model of `calculate_enhanced_score(cv_text, jd_text, skill_config)`.
`sim` is the external TF-IDF/cosine step (`none` = the library call
raised; the source catches every exception and returns 40). -/
def calculate_enhanced_score (sim : String → String → Option ℚ)
    (cv_text jd_text : String) (cfg : SkillConfig) : ℚ :=
  let cv_lower := pyLower cv_text.data
  let jd_lower := pyLower jd_text.data
  let cv_part := joinSp (buildParts cv_lower cfg)
  let jd_part := joinSp (buildParts jd_lower cfg)
  if cv_part = "" ∨ jd_part = "" then 40
  else
    match sim cv_part jd_part with
    | some score => pyRound2 (score * 100)
    | none => 40

/-- Result record of `analyze_gaps`. -/
structure GapAnalysis where
  missing_phrases : List String
  present_phrases : List (String × Nat)
  missing_keywords : List String
  underused_keywords : List (String × Nat)
  good_keywords : List (String × Nat)

/-- Model of `analyze_gaps(cv_text, skill_config)`: the loops append in
list order, which the filters reproduce. -/
def analyze_gaps (cv_text : String) (cfg : SkillConfig) : GapAnalysis :=
  let cv_lower := pyLower cv_text.data
  let all_keywords := cfg.primary ++ cfg.secondary
  { missing_phrases := cfg.phrases.filter (fun p => pyCount cv_lower (pyLower p.data) == 0)
    present_phrases := cfg.phrases.filterMap (fun p =>
      let c := pyCount cv_lower (pyLower p.data)
      if c == 0 then none else some (p, c))
    missing_keywords := all_keywords.filter (fun k => pyCount cv_lower (pyLower k.data) == 0)
    underused_keywords := all_keywords.filterMap (fun k =>
      let c := pyCount cv_lower (pyLower k.data)
      if c == 0 then none else if c < 3 then some (k, c) else none)
    good_keywords := all_keywords.filterMap (fun k =>
      let c := pyCount cv_lower (pyLower k.data)
      if c == 0 then none else if c < 3 then none else some (k, c)) }

/-- The fixed job description (the adjacent Python string literals of
`job_desc`, concatenated). -/
def job_desc : String :=
  "Do you want to help create the future of healthcare? Our name, Siemens Healthineers, was selected to honor our people who dedicate their energy and passion to this cause. It reflects their pioneering spirit combined with our long history of engineering in the ever-evolving healthcare industry.\n\nWe offer you a flexible and dynamic environment with opportunities to go beyond your comfort zone in order to grow personally and professionally. Sounds interesting?\n\nThen come and join our global team as Compliance & Digital Transformation Expert (f/m/d), to drive digital transformation in compliance and help shape the future of risk management.\n\nChoose the best place for your work – Within the scope of this position, it is possible, in consultation with your manager, to work mobile (within Germany) up to an average volume of 60% of the respective working hours.\n\nEven more flexibility? Mobile working from abroad is possible for up to 30 days a year under certain conditions and in selected countries.\n\nThis position can be filled anywhere in the world where Siemens Healthineers is present.\n\nYour tasks and responsibilities:\n- You take ownership of developing and executing the compliance department's digitalization strategy.\n- You lead and support key digitization projects, ensuring successful implementation in collaboration with global stakeholders.\n- You identify compliance needs together with Governance Owners and Regional Compliance Officers and turn them into impactful change projects.\n- You assess internal risk management processes, analyze compliance trends (e.g., technical compliance, ethics, sustainability), and develop measures to minimize risk.\n- You contribute to M&A transactions from due diligence to integration and support continuous improvement of the Siemens Healthineers Compliance System.\n- You foster knowledge exchange with compliance colleagues worldwide and drive innovation in compliance training.\n\nYour qualifications and experience:\n- You have a degree in Compliance, IT, Business Administration, or a related field.\n- You have professional experience in compliance and/or IT and/or digitalization projects.\n- You have experience in project management and working in international environments.\n- Ideally, you have a strong understanding of risk management and compliance frameworks.\n\nYour attributes and skills:\n- You are proficient in English, enabling you to collaborate effectively with global teams and communicate confidently across regions and headquarters.\n- You are confident in decision-making under uncertainty and thrive in dynamic environments.\n- You have a strong aptitude for new technologies, digitalization, and automation, enabling you to lead initiatives that modernize compliance processes and systems.\n- You demonstrate excellent analytical and critical thinking skills.\n- You communicate effectively and build trust across diverse teams ensuring smooth collaboration with governance owners, regional compliance officers, and headquarters as well as IT stakeholders.\n- You work independently with an entrepreneurial mindset, taking ownership of projects and managing multiple priorities in a global setting.\n- You are a team player with strong leadership and interpersonal skills."

def cfg_compliance_risk : SkillConfig :=
  { phrases := ["risk management", "compliance framework", "governance system", "risk assessment"]
    primary := ["compliance", "risk", "governance", "ethics"]
    secondary := ["framework", "control", "oversight", "monitoring", "sustainability"]
    threshold := 75 }

def cfg_digitalization : SkillConfig :=
  { phrases := ["digital transformation", "automated system", "technology-driven solution", "digitalization project"]
    primary := ["digitalization", "automation", "digital transformation"]
    secondary := ["digital", "system", "IT", "technology", "modernize", "innovation", "tool"]
    threshold := 65 }

def cfg_ma_dd : SkillConfig :=
  { phrases := ["due diligence", "merger and acquisition", "post-merger integration", "transaction lifecycle", "M&A"]
    primary := ["merger", "acquisition", "due diligence", "transaction"]
    secondary := ["integration", "target", "consolidation", "deal"]
    threshold := 60 }

def cfg_global : SkillConfig :=
  { phrases := ["cross-border", "international collaboration", "global team"]
    primary := ["global", "international", "regional"]
    secondary := ["cross-border", "headquarters", "collaboration"]
    threshold := 70 }

def cfg_project_mgmt : SkillConfig :=
  { phrases := ["project management", "dynamic environment", "cross-functional", "initiative ownership"]
    primary := ["project", "program", "initiative"]
    secondary := ["coordination", "implementation", "ownership", "priorities", "dynamic"]
    threshold := 70 }

def cfg_training : SkillConfig :=
  { phrases := ["training program", "knowledge exchange", "capability building", "workshop"]
    primary := ["training", "workshop", "education", "knowledge exchange"]
    secondary := ["learning", "development", "mentoring", "coaching"]
    threshold := 65 }

def cfg_regulatory : SkillConfig :=
  { phrases := ["regulatory framework", "compliance requirement", "FCPA"]
    primary := ["regulation", "FCPA", "sanctions", "framework"]
    secondary := ["compliance", "laws", "regulatory", "medtech"]
    threshold := 75 }

/-- `skills_enhanced`, in the dict's insertion order (Python dicts
iterate in insertion order). -/
def skills_enhanced : List (String × SkillConfig) :=
  [("Compliance & Risk Management", cfg_compliance_risk),
   ("Digitalization", cfg_digitalization),
   ("M&A & Due Diligence", cfg_ma_dd),
   ("Global Experience", cfg_global),
   ("Project Management", cfg_project_mgmt),
   ("Training", cfg_training),
   ("Regulatory Knowledge", cfg_regulatory)]

/-- The scoring loop of the Streamlit block (`if cv_file:`): one row
`[skill, score, threshold]` per category, appended in dict order. -/
def analyzeRun (sim : String → String → Option ℚ) (cv_text : String) :
    List (String × ℚ × Nat) :=
  skills_enhanced.map (fun sc =>
    (sc.1, calculate_enhanced_score sim cv_text job_desc sc.2, sc.2.threshold))

/-- `overall_score = round(df["Match %"].mean(), 2)`. -/
def overall_score (scores : List ℚ) : ℚ :=
  pyRound2 (scores.sum / (scores.length : ℚ))

/-- Spec-side weighted mean of §4.5: `Σ(score_i * weight_i) / Σ(weight_i)`. -/
def weightedMean (scores ws : List ℚ) : ℚ :=
  (List.zipWith (fun s w => s * w) scores ws).sum / ws.sum

/-- Model of `read_pdf(file)`.  The input is the outcome of
`PyPDF2.PdfReader(file)`: `Except.error` when the reader (or page
iteration) raises on a malformed document, otherwise the list of pages,
each page's `extract_text()` result being `none` (Python `None`) or a
string.  `read_pdf` installs no handler, so a reader error passes
through unchanged. -/
def read_pdf (file : Except Unit (List (Option String))) : Except Unit String :=
  match file with
  | Except.error e => Except.error e
  | Except.ok pages =>
      Except.ok (pages.foldl (fun text pt =>
        match pt with
        | some s => if s = "" then text else text ++ s ++ " "
        | none => text) "")

/-! Helper lemmas. -/

theorem foldl_append_eq (g : String → List String) :
    ∀ (ks : List String) (acc : List String),
      ks.foldl (fun a k => a ++ g k) acc = acc ++ repeatEach g ks := by
  intro ks
  induction ks with
  | nil => intro acc; simp [repeatEach]
  | cons k ks ih => intro acc; simp [repeatEach, List.foldl_cons, ih, List.append_assoc]

/-- The three accumulating loops of `calculate_enhanced_score` build
exactly the three tier signals, concatenated. -/
theorem buildParts_eq_tiers (tl : List Char) (cfg : SkillConfig) :
    buildParts tl cfg =
      tierSignal tl 3 15 cfg.phrases ++ tierSignal tl 2 10 cfg.primary ++
        tierSignal tl 1 5 cfg.secondary := by
  simp only [buildParts, tierSignal]
  rw [foldl_append_eq (fun ph => List.replicate (min (pyCount tl (pyLower ph.data) * 3) 15) ph),
      foldl_append_eq (fun kw => List.replicate (min (pyCount tl (pyLower kw.data) * 2) 10) kw),
      foldl_append_eq (fun kw => List.replicate (min (pyCount tl (pyLower kw.data)) 5) kw)]
  simp [List.append_assoc, Nat.mul_one]

theorem tierSignal_eq_nil (tl : List Char) (w cap : Nat) :
    ∀ ks : List String, (∀ k ∈ ks, pyCount tl (pyLower k.data) = 0) →
      tierSignal tl w cap ks = [] := by
  intro ks
  induction ks with
  | nil => intro _; rfl
  | cons k ks ih =>
      intro h
      have hk : pyCount tl (pyLower k.data) = 0 := h k (List.mem_cons_self _ _)
      have hks := ih (fun x hx => h x (List.mem_cons_of_mem _ hx))
      simp [tierSignal, repeatEach, hk] at *
      simpa [hk] using hks

theorem calc_default_of_part_empty (sim : String → String → Option ℚ)
    (cv jd : String) (cfg : SkillConfig)
    (h : joinSp (buildParts (pyLower cv.data) cfg) = "" ∨
         joinSp (buildParts (pyLower jd.data) cfg) = "") :
    calculate_enhanced_score sim cv jd cfg = 40 := by
  simp only [calculate_enhanced_score]
  rw [if_pos h]

theorem buildParts_eq_nil_of_counts (text : String) (cfg : SkillConfig)
    (h : ∀ kw ∈ cfg.phrases ++ cfg.primary ++ cfg.secondary, kwCount text kw = 0) :
    buildParts (pyLower text.data) cfg = [] := by
  simp only [kwCount, List.mem_append] at h
  rw [buildParts_eq_tiers]
  rw [tierSignal_eq_nil _ _ _ _ (fun k hk => h k (Or.inl (Or.inl hk))),
      tierSignal_eq_nil _ _ _ _ (fun k hk => h k (Or.inl (Or.inr hk))),
      tierSignal_eq_nil _ _ _ _ (fun k hk => h k (Or.inr hk))]
  rfl

theorem countFrom_skip (sub : List Char) :
    ∀ (hay : List Char) (k : Nat), countFrom sub hay k = countFrom sub (hay.drop k) 0 := by
  intro hay
  induction hay with
  | nil => intro k; simp [countFrom]
  | cons c rest ih =>
      intro k
      cases k with
      | zero => rfl
      | succ k' => simpa [countFrom] using ih k'

theorem countFrom_eq_subOccs (sub : List Char) (hsub : sub.isEmpty = false) :
    ∀ (n : Nat) (hay : List Char), hay.length ≤ n → countFrom sub hay 0 = subOccs sub hay := by
  intro n
  induction n with
  | zero =>
      intro hay hlen
      have : hay = [] := List.eq_nil_of_length_eq_zero (Nat.le_zero.mp hlen)
      subst this
      simp [countFrom, subOccs, hsub]
  | succ n ih =>
      intro hay hlen
      cases hay with
      | nil => simp [countFrom, subOccs, hsub]
      | cons c rest =>
          rw [subOccs]
          simp only [hsub, Bool.false_eq_true, if_false]
          cases hpre : sub.isPrefixOf (c :: rest) with
          | true =>
              rw [if_pos rfl]
              obtain ⟨s, ss, rfl⟩ : ∃ s ss, sub = s :: ss := by
                cases sub with
                | nil => simp [List.isEmpty] at hsub
                | cons s ss => exact ⟨s, ss, rfl⟩
              have hstep : countFrom (s :: ss) (c :: rest) 0
                  = countFrom (s :: ss) rest ((s :: ss).length - 1) + 1 := by
                simp [countFrom, hpre]
              rw [hstep, countFrom_skip]
              have hdrop : List.drop ((s :: ss).length - 1) rest
                  = List.drop (s :: ss).length (c :: rest) := by
                simp [List.length_cons]
              rw [hdrop]
              have hlen2 : (List.drop (s :: ss).length (c :: rest)).length ≤ n := by
                simp only [List.length_drop, List.length_cons] at *
                omega
              rw [ih _ hlen2]
          | false =>
              rw [if_neg (by simp [hpre])]
              have hstep : countFrom sub (c :: rest) 0 = countFrom sub rest 0 := by
                cases sub with
                | nil => simp [List.isEmpty] at hsub
                | cons s ss => simp [countFrom, hpre]
              rw [hstep]
              exact ih rest (by simpa [List.length_cons] using Nat.le_of_succ_le_succ hlen)

/-- Python's `str.count` agrees with the independent leftmost
non-overlapping substring-occurrence count. -/
theorem pyCount_eq_subOccs (hay sub : List Char) : pyCount hay sub = subOccs sub hay := by
  cases hs : sub.isEmpty with
  | true =>
      cases hay with
      | nil => simp [pyCount, subOccs, hs]
      | cons c rest => simp [pyCount, subOccs, hs]
  | false =>
      rw [pyCount]
      simp only [hs, Bool.false_eq_true, if_false]
      exact countFrom_eq_subOccs sub hs hay.length hay (le_refl _)

theorem countFrom_pos_iff (sub : List Char) (hsub : sub.isEmpty = false) :
    ∀ hay : List Char, 0 < countFrom sub hay 0 ↔ hasSub sub hay = true := by
  intro hay
  induction hay with
  | nil =>
      simp [countFrom, hasSub, hsub]
  | cons c rest ih =>
      cases hpre : sub.isPrefixOf (c :: rest) with
      | true =>
          have hstep : countFrom sub (c :: rest) 0
              = countFrom sub rest (sub.length - 1) + 1 := by
            cases sub with
            | nil => simp [List.isEmpty] at hsub
            | cons s ss => simp [countFrom, hpre]
          simp [hstep, hasSub, hpre]
      | false =>
          have hstep : countFrom sub (c :: rest) 0 = countFrom sub rest 0 := by
            cases sub with
            | nil => simp [List.isEmpty] at hsub
            | cons s ss => simp [countFrom, hpre]
          simp [hstep, hasSub, hpre, ih]

/-- Positivity of Python's `str.count` is exactly "occurs somewhere as
a substring" (no word-boundary requirement). -/
theorem pyCount_pos_iff (hay sub : List Char) :
    0 < pyCount hay sub ↔ hasSub sub hay = true := by
  cases hs : sub.isEmpty with
  | true =>
      have hL : 0 < pyCount hay sub := by
        rw [pyCount]
        simp [hs]
      have hR : hasSub sub hay = true := by
        cases hay with
        | nil => simpa [hasSub] using hs
        | cons c rest =>
            cases sub with
            | nil => simp [hasSub, List.isPrefixOf]
            | cons s ss => simp [List.isEmpty] at hs
      simp [hL, hR]
  | false =>
      rw [pyCount]
      simp only [hs, Bool.false_eq_true, if_false]
      exact countFrom_pos_iff sub hs hay

theorem zipWith_one_sum : ∀ l : List ℚ,
    (List.zipWith (fun s w => s * w) l (List.replicate l.length 1)).sum = l.sum := by
  intro l
  induction l with
  | nil => rfl
  | cons x xs ih => simp [List.replicate_succ, ih]

theorem replicate_one_sum : ∀ n : Nat, (List.replicate n (1 : ℚ)).sum = n := by
  intro n
  induction n with
  | zero => rfl
  | succ n ih =>
      simp [List.replicate_succ, ih]
      ring

/-! Claims. -/

/-- Claim C2: in `calculate_enhanced_score` the signal list for each
side repeats each matched keyword `min (occurrence count * tier weight) cap`
times — phrases with weight 3 capped at 15, primary keywords with
weight 2 capped at 10, secondary keywords with weight 1 capped at 5 —
for every input text and skill configuration. -/
theorem signal_string_tier_construction (text : String) (cfg : SkillConfig) :
    buildParts (pyLower text.data) cfg =
      tierSignal (pyLower text.data) 3 15 cfg.phrases ++
        tierSignal (pyLower text.data) 2 10 cfg.primary ++
        tierSignal (pyLower text.data) 1 5 cfg.secondary :=
  buildParts_eq_tiers (pyLower text.data) cfg

/-- Claim C3: `calculate_enhanced_score` is total (every library
failure is caught and mapped to 40) and, whenever the similarity step
(cosine similarity of nonnegative TF-IDF vectors, hence in `[0,1]`)
returns a value, the result is either the sentinel 40 or a number in
`[0,100]` with at most two decimal places. -/
theorem score_total_and_bounded (sim : String → String → Option ℚ)
    (cv jd : String) (cfg : SkillConfig)
    (hsim : ∀ a b q, sim a b = some q → 0 ≤ q ∧ q ≤ 1) :
    calculate_enhanced_score sim cv jd cfg = 40 ∨
      (0 ≤ calculate_enhanced_score sim cv jd cfg ∧
       calculate_enhanced_score sim cv jd cfg ≤ 100 ∧
       ∃ n : ℤ, calculate_enhanced_score sim cv jd cfg = (n : ℚ) / 100) := by
  by_cases h : joinSp (buildParts (pyLower cv.data) cfg) = "" ∨
      joinSp (buildParts (pyLower jd.data) cfg) = ""
  · exact Or.inl (calc_default_of_part_empty sim cv jd cfg h)
  · simp only [calculate_enhanced_score]
    rw [if_neg h]
    cases hs : sim (joinSp (buildParts (pyLower cv.data) cfg))
        (joinSp (buildParts (pyLower jd.data) cfg)) with
    | none => exact Or.inl rfl
    | some q =>
        obtain ⟨h0, h1⟩ := hsim _ _ q hs
        have hx0 : (0 : ℚ) ≤ q * 100 := by nlinarith
        have hx1 : q * 100 ≤ 100 := by nlinarith
        exact Or.inr (pyRound2_bounds (q * 100) hx0 hx1)

/-- Claim C3 witness: the bound holds at a concrete oracle and inputs. -/
theorem score_total_and_bounded_witness :
    calculate_enhanced_score (fun _ _ => some (1/2)) "training" "training" cfg_training = 40 ∨
      (0 ≤ calculate_enhanced_score (fun _ _ => some (1/2)) "training" "training" cfg_training ∧
       calculate_enhanced_score (fun _ _ => some (1/2)) "training" "training" cfg_training ≤ 100 ∧
       ∃ n : ℤ, calculate_enhanced_score (fun _ _ => some (1/2)) "training" "training" cfg_training
         = (n : ℚ) / 100) :=
  score_total_and_bounded (fun _ _ => some (1/2)) "training" "training" cfg_training
    (by
      intro a b q h
      have hq : (1/2 : ℚ) = q := by injection h
      rw [← hq]
      norm_num)

/-- Claim C4: a resume containing no keyword or phrase of a category
(case-blind) gets the fixed default 40 from `calculate_enhanced_score`,
uniformly in the category definition. -/
theorem no_resume_keyword_default_forty (sim : String → String → Option ℚ)
    (cv jd : String) (cfg : SkillConfig)
    (h : ∀ kw ∈ cfg.phrases ++ cfg.primary ++ cfg.secondary, kwCount cv kw = 0) :
    calculate_enhanced_score sim cv jd cfg = 40 :=
  calc_default_of_part_empty sim cv jd cfg
    (Or.inl (by rw [buildParts_eq_nil_of_counts cv cfg h]; rfl))

/-- Claim C4 witness: a resume with none of the Training keywords. -/
theorem no_resume_keyword_default_forty_witness :
    calculate_enhanced_score (fun _ _ => none) "zzz" "x" cfg_training = 40 :=
  no_resume_keyword_default_forty (fun _ _ => none) "zzz" "x" cfg_training (by decide)

/-- Claim C10: when the job-description side has no occurrence of any
of the category's phrases or keywords, the default 40 is returned no
matter how keyword-rich the resume is. -/
theorem no_jd_keyword_default_forty (sim : String → String → Option ℚ)
    (cv jd : String) (cfg : SkillConfig)
    (h : ∀ kw ∈ cfg.phrases ++ cfg.primary ++ cfg.secondary, kwCount jd kw = 0) :
    calculate_enhanced_score sim cv jd cfg = 40 :=
  calc_default_of_part_empty sim cv jd cfg
    (Or.inr (by rw [buildParts_eq_nil_of_counts jd cfg h]; rfl))

/-- Claim C10 witness: keyword-rich resume, keyword-free job text. -/
theorem no_jd_keyword_default_forty_witness :
    calculate_enhanced_score (fun _ _ => some 1) "training workshop education" "zzz"
      cfg_training = 40 :=
  no_jd_keyword_default_forty (fun _ _ => some 1) "training workshop education" "zzz"
    cfg_training (by decide)

/-- Claim C6: occurrence counting is substring-based and case-blind:
the count equals the case-blind non-overlapping substring-occurrence
count, is invariant under case changes of either input, and is positive
exactly when the lowered keyword occurs anywhere in the lowered text —
with no word-boundary condition, so a keyword inside a longer unrelated
word still matches. -/
theorem occurrence_count_substring_case_blind (text kw : String) :
    kwCount text kw = subOccs (pyLower kw.data) (pyLower text.data)
    ∧ (∀ text2 kw2 : String, pyLower text2.data = pyLower text.data →
        pyLower kw2.data = pyLower kw.data → kwCount text2 kw2 = kwCount text kw)
    ∧ (0 < kwCount text kw ↔ hasSub (pyLower kw.data) (pyLower text.data) = true) := by
  refine ⟨pyCount_eq_subOccs _ _, ?_, pyCount_pos_iff _ _⟩
  intro t2 k2 ht hk
  simp only [kwCount, ht, hk]

/-- Claim C6 witness: "IT" matches case-blind inside the longer word
"QUALITY", and counting is unchanged under case variation. -/
theorem occurrence_count_substring_case_blind_witness :
    kwCount "high-quality work" "it" = kwCount "High-QUALITY work" "IT" ∧
    0 < kwCount "High-QUALITY work" "IT" := by
  have h := occurrence_count_substring_case_blind "High-QUALITY work" "IT"
  exact ⟨h.2.1 "high-quality work" "it" (by decide) (by decide), h.2.2.mpr (by decide)⟩

/-- Claim C1 (divergence witness): on an empty extracted resume the
pipeline does not halt — for every similarity oracle the scoring loop
still produces all 7 category rows, each scored with the default 40. -/
theorem empty_extraction_scores_all_categories (sim : String → String → Option ℚ) :
    (analyzeRun sim "").length = 7 ∧
    (analyzeRun sim "").map (fun r => r.2.1) = List.replicate 7 40 :=
  ⟨rfl, rfl⟩

/-- Claim C7 (divergence witness): `read_pdf` installs no exception
handler, so a reader error on a malformed document propagates to the
caller; only the no-text-layer case yields an empty string. -/
theorem read_pdf_propagates_reader_error :
    read_pdf (Except.error ()) = Except.error () ∧
    read_pdf (Except.ok [none, some "", none]) = Except.ok "" :=
  ⟨rfl, rfl⟩

/-- Claim C5 counterexample: the aggregator is an unweighted mean —
on scores [80, 60, 40] it yields 60, not the 55 the weighted formula
with weights [1, 1, 2] would give. -/
theorem overall_weighted_example_fails :
    overall_score [80, 60, 40] = 60 ∧
    weightedMean [80, 60, 40] [1, 1, 2] = 55 ∧
    overall_score [80, 60, 40] ≠ 55 := by
  refine ⟨?_, ?_, ?_⟩ <;> norm_num [overall_score, weightedMean, pyRound2]

/-- Claim C5 amended: the overall score is the unweighted mean of the
category scores rounded to two decimals — i.e. the weighted-mean
formula with every weight equal to 1. -/
theorem overall_is_unweighted_mean (scores : List ℚ) :
    overall_score scores = pyRound2 (weightedMean scores (List.replicate scores.length 1)) := by
  simp only [overall_score, weightedMean, zipWith_one_sum, replicate_one_sum]

set_option maxRecDepth 200000 in
/-- Claim C8 counterexample: a run in which a later category outscores
an earlier one — the per-category rows are not sorted descending by
score. -/
theorem results_not_sorted_by_score :
    ¬ List.Chain' (fun a b : ℚ => b ≤ a)
        ((analyzeRun (fun _ _ => some 1) "workshop").map (fun r => r.2.1)) := by
  have h40 : ∀ cfg : SkillConfig,
      joinSp (buildParts (pyLower "workshop".data) cfg) = "" →
      calculate_enhanced_score (fun _ _ => some 1) "workshop" job_desc cfg = 40 :=
    fun cfg h => calc_default_of_part_empty _ _ _ _ (Or.inl h)
  have hTr : calculate_enhanced_score (fun _ _ => some 1) "workshop" job_desc cfg_training
      = 100 := by
    simp only [calculate_enhanced_score]
    rw [if_neg (by decide)]
    show pyRound2 ((1 : ℚ) * 100) = 100
    norm_num [pyRound2]
  have hrun : (analyzeRun (fun _ _ => some 1) "workshop").map (fun r => r.2.1)
      = [40, 40, 40, 40, 40, 100, 40] := by
    show [calculate_enhanced_score (fun _ _ => some 1) "workshop" job_desc cfg_compliance_risk,
          calculate_enhanced_score (fun _ _ => some 1) "workshop" job_desc cfg_digitalization,
          calculate_enhanced_score (fun _ _ => some 1) "workshop" job_desc cfg_ma_dd,
          calculate_enhanced_score (fun _ _ => some 1) "workshop" job_desc cfg_global,
          calculate_enhanced_score (fun _ _ => some 1) "workshop" job_desc cfg_project_mgmt,
          calculate_enhanced_score (fun _ _ => some 1) "workshop" job_desc cfg_training,
          calculate_enhanced_score (fun _ _ => some 1) "workshop" job_desc cfg_regulatory]
        = [40, 40, 40, 40, 40, 100, 40]
    rw [h40 cfg_compliance_risk (by decide), h40 cfg_digitalization (by decide),
        h40 cfg_ma_dd (by decide), h40 cfg_global (by decide),
        h40 cfg_project_mgmt (by decide), hTr, h40 cfg_regulatory (by decide)]
  rw [hrun]
  intro hch
  simp only [List.chain'_cons] at hch
  have : (100 : ℚ) ≤ 40 := hch.2.2.2.2.1
  norm_num at this

/-- Claim C8 amended: the per-category rows appear in the fixed
definition order of `skills_enhanced`; no sort by score is applied. -/
theorem results_follow_definition_order (sim : String → String → Option ℚ) (cv : String) :
    (analyzeRun sim cv).map (fun r => r.1) =
      ["Compliance & Risk Management", "Digitalization", "M&A & Due Diligence",
       "Global Experience", "Project Management", "Training", "Regulatory Knowledge"] :=
  rfl

/-- Claim C9 counterexample: in the run on the resume sentence of the
claim, the Training row carries only the category name, a score, and
the threshold 65; its only textual field is the name "Training", not
the resume sentence the claim requires verbatim as evidence. -/
theorem category_result_lacks_evidence :
    ((analyzeRun (fun _ _ => some 1)
        "Led a cross-border compliance training workshop for 20 staff").get? 5).map
      (fun r => (r.1, r.2.2)) = some ("Training", 65) ∧
    ("Training" : String) ≠ "Led a cross-border compliance training workshop for 20 staff" :=
  ⟨rfl, by decide⟩

/-- Claim C9 amended: every row of a run consists of exactly the
category name, a score and that category's threshold — no evidence
field exists and no sentence extraction is performed. -/
theorem category_result_fields (sim : String → String → Option ℚ) (cv : String) :
    (analyzeRun sim cv).map (fun r => (r.1, r.2.2)) =
      skills_enhanced.map (fun sc => (sc.1, sc.2.threshold)) :=
  rfl

end ComplianceFit
